import Mathlib

/-!
Verification of the agent-viz-v2 connection-manager / activity-reducer core.

The TypeScript sources are shallowly embedded:
* runtime JavaScript values that flow through the dynamic validators are
  modelled by `JsVal` (JS numbers are modelled by `Int`; the claims under
  study never depend on fractional or NaN behaviour);
* a JS property read on a value known to be an object is `getField`
  (absent fields read as `undefined`), while a property read on an
  arbitrary value is `getProp`, which faithfully throws a `TypeError`
  when the receiver is `undefined` or `null`;
* the React `setState(updater)` idiom is modelled by applying the updater
  to the current state; a thrown exception is an `Except.error` result;
* `Date.now()` is modelled by an explicit clock argument (`now`), one
  reading per processed event.
-/

namespace AgentViz

/-- Dynamic JavaScript runtime values (the `unknown` type of the sources). -/
inductive JsVal where
  | vundefined : JsVal
  | vnull : JsVal
  | vbool : Bool → JsVal
  | vnum : Int → JsVal
  | vstr : String → JsVal
  | vobj : List (String × JsVal) → JsVal
  | varr : List JsVal → JsVal
  deriving Repr

/-- The JS `typeof` operator (note `typeof null === 'object'` and
`typeof [] === 'object'`). -/
def jsTypeof : JsVal → String
  | .vundefined => "undefined"
  | .vnull => "object"
  | .vbool _ => "boolean"
  | .vnum _ => "number"
  | .vstr _ => "string"
  | .vobj _ => "object"
  | .varr _ => "object"

/-- First-match lookup in an object's field list. -/
def lookupField : List (String × JsVal) → String → JsVal
  | [], _ => .vundefined
  | (k, v) :: rest, key => if k = key then v else lookupField rest key

/-- JS property read `v.k` on a value that is not `undefined`/`null`:
absent fields (and any field of a primitive or array) read as `undefined`. -/
def getField : JsVal → String → JsVal
  | .vobj fs, k => lookupField fs k
  | _, _ => .vundefined

/-- A thrown JS exception, carrying the property name of a
`TypeError: Cannot read properties of undefined/null (reading 'k')`. -/
inductive JsErr where
  | typeError : String → JsErr
  deriving Repr, DecidableEq

/-- JS property read `v.k` on an arbitrary value: reading a property of
`undefined` or `null` throws a `TypeError`. -/
def getProp : JsVal → String → Except JsErr JsVal
  | .vundefined, k => .error (.typeError k)
  | .vnull, k => .error (.typeError k)
  | v, k => .ok (getField v k)

/-- JS truthiness. -/
def truthy : JsVal → Bool
  | .vundefined => false
  | .vnull => false
  | .vbool b => b
  | .vnum n => n != 0
  | .vstr s => s != ""
  | .vobj _ => true
  | .varr _ => true

/-- Coerce a `JsVal` known (by prior validation) to be a number; the
default branch is unreachable on validated events. -/
def asNum : JsVal → Int
  | .vnum n => n
  | _ => 0

/-! ## ConnectionManager: backoff delay (`useWebSocket.ts`, `getReconnectDelay`) -/

/-- `getReconnectDelay` from `useWebSocket.ts`:
`Math.min(reconnectInterval * Math.pow(reconnectDecay, attempts), maxReconnectInterval)`. -/
def getReconnectDelay (reconnectInterval reconnectDecay maxReconnectInterval attempts : Nat) : Nat :=
  min (reconnectInterval * reconnectDecay ^ attempts) maxReconnectInterval

/-! ## ConnectionManager: bounded event log (`useWebSocket.ts`, `addEvent`) -/

/-- `addEvent` from `useWebSocket.ts`: append, then if the log exceeds
`maxEvents`, keep the most recent `maxEvents` entries
(`newEvents.slice(newEvents.length - maxEvents)` = `List.drop`). -/
def addEvent {α : Type} (maxEvents : Nat) (prev : List α) (event : α) : List α :=
  let newEvents := prev ++ [event]
  if newEvents.length > maxEvents then
    newEvents.drop (newEvents.length - maxEvents)
  else
    newEvents

/-- Appending a whole arrival sequence to an initially empty log,
one `addEvent` at a time. -/
def foldAddEvents {α : Type} (maxEvents : Nat) (events : List α) : List α :=
  events.foldl (addEvent maxEvents) []

/-! ## ActivityReducer data model (`agentEvents.ts`) -/

/-- `TokenUsage` record. The fields hold whatever runtime values the fold
wrote there (the source performs no numeric check on `token_update`
payload fields), so they are dynamic values. -/
structure TokenUsage where
  promptTokens : JsVal
  completionTokens : JsVal
  totalTokens : JsVal
  deriving Repr

/-- `ToolCall` record: `{toolName: data.toolName, timestamp: event.timestamp,
duration: data.duration, input: data.toolInput}`; only `timestamp` is
guaranteed a number by validation. -/
structure ToolCall where
  toolName : JsVal
  timestamp : Int
  duration : JsVal
  input : JsVal
  deriving Repr

/-- `AgentActivity` record. `agentId` is a string (guaranteed by
validation before any activity is created); `status`, `currentModel` and
`metadata` are dynamic values, since e.g. a `heartbeat` event writes
`event.data.status` into `status` unchecked. -/
structure AgentActivity where
  agentId : String
  status : JsVal
  currentModel : JsVal
  toolsUsed : List ToolCall
  tokenUsage : TokenUsage
  lastActivity : Int
  startedAt : Int
  endedAt : Option Int
  metadata : JsVal
  deriving Repr

/-- The `AgentActivityMap` (a JS `Map` keyed by `agentId`). Modelled as an
association list in insertion order, keys unique. -/
abbrev ActivityStore := List (String × AgentActivity)

/-- JS `Map.get`. -/
def storeGet : ActivityStore → String → Option AgentActivity
  | [], _ => none
  | (k', a') :: rest, k => if k' = k then some a' else storeGet rest k

/-- JS `Map.set`: an existing key keeps its position and gets the new
value; a new key is appended. -/
def storeSet : ActivityStore → String → AgentActivity → ActivityStore
  | [], k, a => [(k, a)]
  | (k', a') :: rest, k, a =>
    if k' = k then (k, a) :: rest else (k', a') :: storeSet rest k a

/-- JS object spread `{...v}` as a field list: objects contribute their
fields; `undefined`/`null`/primitives contribute none. (Spreading a
string would contribute index fields in JS; that edge case is not
reachable in the fold paths under study, which spread only values that
arrived in `metadata` positions.) -/
def spreadFields : JsVal → List (String × JsVal)
  | .vobj fs => fs
  | _ => []

/-- JS object merge `{...l, ...r}`: keys of `l` keep their position but
take `r`'s value when `r` also has the key; keys only in `r` are
appended in order. -/
def mergeObjFields (l r : List (String × JsVal)) : List (String × JsVal) :=
  (l.map fun p =>
    match r.lookup p.1 with
    | some v => (p.1, v)
    | none => p) ++
  r.filter fun q => (l.lookup q.1).isNone

/-- `{ ...updated.metadata, ...event.data.metadata }` as a `JsVal`. -/
def mergeMeta (l r : JsVal) : JsVal :=
  .vobj (mergeObjFields (spreadFields l) (spreadFields r))

/-! ## ActivityReducer operations (`agentEvents.ts`, `useAgentActivities.ts`) -/

/-- The six recognized `AgentEvent.type` kinds (`validTypes` in
`isValidAgentEvent`). -/
def validEventTypes : List String :=
  ["agent_started", "agent_ended", "tool_called", "model_switched",
   "token_update", "heartbeat"]

/-- `isValidAgentEvent` from `useAgentActivities.ts`, line for line:
object (non-null) check, then `typeof` checks on `type`, `agentId`,
`timestamp`, then membership of `type` in the six kinds. -/
def isValidAgentEvent (event : JsVal) : Bool :=
  -- `typeof event !== 'object' || event === null`
  if !(jsTypeof event = "object") then false
  else match event with
    | .vnull => false
    | _ =>
      if !(jsTypeof (getField event "type") = "string") then false
      else if !(jsTypeof (getField event "agentId") = "string") then false
      else if !(jsTypeof (getField event "timestamp") = "number") then false
      else
        -- `validTypes.includes(e.type)`; `type` is a string here
        match getField event "type" with
        | .vstr s => validEventTypes.contains s
        | _ => false

/-- `createInitialActivity` from `agentEvents.ts`. `now` models the two
`Date.now()` readings; `model`/`metadata` are `undefined` when the
optional arguments are omitted at a call site. -/
def createInitialActivity (now : Int) (agentId : String) (model metadata : JsVal) :
    AgentActivity :=
  { agentId := agentId
    status := .vstr "active"
    currentModel := model
    toolsUsed := []
    tokenUsage := ⟨.vnum 0, .vnum 0, .vnum 0⟩
    lastActivity := now
    startedAt := now
    endedAt := none
    metadata := metadata }

/-- `updateActivityFromEvent` from `agentEvents.ts`. The `event.data.X`
reads go through `getProp`, which throws when `data` is
`undefined`/`null` — exactly as the source does, since validation never
inspects `data`. Field-write order within a case follows the source, and
so therefore does the position of the first throwing read. -/
def updateActivityFromEvent (activity : AgentActivity) (event : JsVal) :
    Except JsErr AgentActivity :=
  let ts := asNum (getField event "timestamp")
  -- `const updated = { ...activity, lastActivity: event.timestamp }`
  let updated := { activity with lastActivity := ts }
  let data := getField event "data"
  match getField event "type" with
  | .vstr "agent_started" => do
    let u := { updated with status := .vstr "active" }
    let model ← getProp data "model"
    let u := if truthy model then { u with currentModel := model } else u
    let md ← getProp data "metadata"
    let u := if truthy md then { u with metadata := mergeMeta u.metadata md } else u
    .ok u
  | .vstr "agent_ended" => do
    let reason ← getProp data "reason"
    -- `event.data.reason === 'error'`
    let u := { updated with
      status := match reason with
        | .vstr "error" => JsVal.vstr "error"
        | _ => JsVal.vstr "ended"
      endedAt := some ts }
    let ftc ← getProp data "finalTokenCount"
    let u :=
      if truthy ftc then { u with tokenUsage := { u.tokenUsage with totalTokens := ftc } }
      else u
    .ok u
  | .vstr "tool_called" => do
    let tn ← getProp data "toolName"
    let dur ← getProp data "duration"
    let inp ← getProp data "toolInput"
    .ok { updated with
      toolsUsed := updated.toolsUsed ++
        [{ toolName := tn, timestamp := ts, duration := dur, input := inp }] }
  | .vstr "model_switched" => do
    let nm ← getProp data "newModel"
    .ok { updated with currentModel := nm }
  | .vstr "token_update" => do
    let pt ← getProp data "promptTokens"
    let ct ← getProp data "completionTokens"
    let tt ← getProp data "totalTokens"
    .ok { updated with tokenUsage := ⟨pt, ct, tt⟩ }
  | .vstr "heartbeat" => do
    let st ← getProp data "status"
    .ok { updated with status := st }
  | _ => .ok updated

/-- `processEvent` from `useAgentActivities.ts`: validate (invalid events
are logged and skipped, returning the store unchanged), then fold into a
copy of the map. The inner `match` extracts the field shapes that
validation guarantees; its default branch is unreachable for events that
passed validation. `now` models `Date.now()` during this call. -/
def processEvent (now : Int) (store : ActivityStore) (event : JsVal) :
    Except JsErr ActivityStore :=
  if !isValidAgentEvent event then .ok store
  else
    match getField event "agentId", getField event "type" with
    | .vstr agentId, .vstr ty =>
      let data := getField event "data"
      let existing := storeGet store agentId
      if ty = "agent_started" then
        match existing with
        | some act => do
          let a ← updateActivityFromEvent act event
          .ok (storeSet store agentId a)
        | none => do
          -- `createInitialActivity(event.agentId, event.data.model, event.data.metadata)`
          let model ← getProp data "model"
          let md ← getProp data "metadata"
          .ok (storeSet store agentId (createInitialActivity now agentId model md))
      else
        match existing with
        | some act => do
          let a ← updateActivityFromEvent act event
          .ok (storeSet store agentId a)
        | none => do
          -- unknown agent: placeholder, then fold the event into it
          let placeholder := createInitialActivity now agentId .vundefined .vundefined
          let a ← updateActivityFromEvent placeholder event
          .ok (storeSet store agentId a)
    | _, _ => .ok store

/-- `processEvents` from `useAgentActivities.ts`: one `setActivities`
updater that copies the map once and loops over the batch, skipping
invalid events (`continue`) and folding valid ones in order. Each event
is paired with the `Date.now()` reading current while it is processed. A
thrown exception aborts the rest of the batch. -/
def processEvents (store : ActivityStore) : List (Int × JsVal) → Except JsErr ActivityStore
  | [] => .ok store
  | (now, event) :: rest =>
    if !isValidAgentEvent event then processEvents store rest
    else
      match getField event "agentId", getField event "type" with
      | .vstr agentId, .vstr ty =>
        let data := getField event "data"
        let existing := storeGet store agentId
        if ty = "agent_started" then
          match existing with
          | some act => do
            let a ← updateActivityFromEvent act event
            processEvents (storeSet store agentId a) rest
          | none => do
            let model ← getProp data "model"
            let md ← getProp data "metadata"
            processEvents (storeSet store agentId (createInitialActivity now agentId model md)) rest
        else
          match existing with
          | some act => do
            let a ← updateActivityFromEvent act event
            processEvents (storeSet store agentId a) rest
          | none => do
            let placeholder := createInitialActivity now agentId .vundefined .vundefined
            let a ← updateActivityFromEvent placeholder event
            processEvents (storeSet store agentId a) rest
      | _, _ => processEvents store rest

/-! ## ConnectionManager lifecycle (`useWebSocket.ts`, second hook:
`scheduleReconnect` / `connectInternal`'s `onclose` / `disconnect`) -/

/-- The refs and state of the second `useWebSocket` hook that the
disconnect/reconnect logic reads and writes. `reconnectTimerPending`
models whether `reconnectTimerRef.current` holds a live timer. -/
structure WsState where
  status : String
  lastError : Option String
  wsPresent : Bool
  reconnectAttempts : Nat
  reconnectTimerPending : Bool
  isManualDisconnect : Bool
  deriving Repr

/-- `clearReconnectTimer`. -/
def clearReconnectTimer (s : WsState) : WsState :=
  { s with reconnectTimerPending := false }

/-- `scheduleReconnect`: bail out on the manual-disconnect flag; surface
the ceiling condition when `reconnectAttempts >= maxReconnectAttempts`
(`none` models the default `Infinity`); otherwise arm the backoff timer. -/
def scheduleReconnect (maxReconnectAttempts : Option Nat) (s : WsState) : WsState :=
  if s.isManualDisconnect then s
  else if (match maxReconnectAttempts with
           | some m => decide (m ≤ s.reconnectAttempts)
           | none => false) then
    { s with lastError := some "Max reconnection attempts reached", status := "disconnected" }
  else
    { s with reconnectTimerPending := true }

/-- The `ws.onclose` handler installed by `connectInternal`: transition
to `disconnected`, drop the socket handle, and schedule a reconnect
unless the disconnect was manual. -/
def onCloseCallback (maxReconnectAttempts : Option Nat) (s : WsState) : WsState :=
  let s := { s with status := "disconnected", wsPresent := false }
  if !s.isManualDisconnect then scheduleReconnect maxReconnectAttempts s else s

/-- `disconnect()`: set the manual-close marker, cancel any pending
reconnect timer, close the socket if present, transition to
`disconnected`, reset the attempt counter. -/
def disconnect (s : WsState) : WsState :=
  let s := { s with isManualDisconnect := true }
  let s := clearReconnectTimer s
  let s := { s with wsPresent := false }
  { s with status := "disconnected", reconnectAttempts := 0 }

/-! ## ConnectionManager message gate (`useWebSocket.ts`, `isValidMessage`) -/

/-- The accepted transport-envelope types (`validTypes` in
`isValidMessage`). -/
def validMessageTypes : List String :=
  ["agent_event", "agent_activity", "heartbeat", "error"]

/-- `isValidMessage` from `useWebSocket.ts`, line for line: non-null
object check, `typeof msg.type === 'string'`,
`typeof msg.payload === 'object' && msg.payload !== null` (arrays pass
this, since `typeof [] === 'object'`), then membership of `type` in the
four accepted envelope kinds. -/
def isValidMessage (data : JsVal) : Bool :=
  if !(jsTypeof data = "object") then false
  else match data with
    | .vnull => false
    | _ =>
      if !(jsTypeof (getField data "type") = "string") then false
      else if !(jsTypeof (getField data "payload") = "object") then false
      else match getField data "payload" with
        | .vnull => false
        | _ =>
          match getField data "type" with
          | .vstr s => validMessageTypes.contains s
          | _ => false

end AgentViz

namespace AgentViz.RefModel

/-!
Reference-semantics model of `updateActivityFromEvent`.

The pure model above cannot express JS aliasing. Here the two nested
mutable objects of an `AgentActivity` — `tokenUsage` and the `toolsUsed`
array — live in an explicit heap, and the activity record holds
references into it. `const updated = { ...activity, ... }` is a shallow
copy: the copy shares both references with the original. The
`agent_ended` case writes `updated.tokenUsage.totalTokens = ...` through
the shared reference (no new cell), while `tool_called` and
`token_update` allocate fresh cells and rebind the copy's reference, as
the source's `[...updated.toolsUsed, ...]` / object literals do.
-/

open AgentViz

/-- Heap of mutable cells: `tokenCells` for `TokenUsage` objects,
`toolCells` for `toolsUsed` arrays. References are indices. -/
structure Heap where
  tokenCells : List TokenUsage
  toolCells : List (List ToolCall)
  deriving Repr

/-- Read a `TokenUsage` cell. -/
def Heap.getToken (h : Heap) (r : Nat) : TokenUsage :=
  (h.tokenCells.get? r).getD ⟨.vundefined, .vundefined, .vundefined⟩

/-- Read a `toolsUsed` cell. -/
def Heap.getTools (h : Heap) (r : Nat) : List ToolCall :=
  (h.toolCells.get? r).getD []

/-- Overwrite a `TokenUsage` cell in place. -/
def Heap.setToken (h : Heap) (r : Nat) (t : TokenUsage) : Heap :=
  { h with tokenCells := h.tokenCells.set r t }

/-- Allocate a fresh `TokenUsage` cell. -/
def Heap.allocToken (h : Heap) (t : TokenUsage) : Heap × Nat :=
  ({ h with tokenCells := h.tokenCells ++ [t] }, h.tokenCells.length)

/-- Allocate a fresh `toolsUsed` cell. -/
def Heap.allocTools (h : Heap) (l : List ToolCall) : Heap × Nat :=
  ({ h with toolCells := h.toolCells ++ [l] }, h.toolCells.length)

/-- An `AgentActivity` whose nested mutable objects are heap references. -/
structure Activity where
  agentId : String
  status : JsVal
  currentModel : JsVal
  toolsUsedRef : Nat
  tokenUsageRef : Nat
  lastActivity : Int
  startedAt : Int
  endedAt : Option Int
  metadata : JsVal
  deriving Repr

/-- `updateActivityFromEvent` with explicit reference semantics. The
shallow spread copies the two references; every branch then manipulates
heap cells exactly as the source manipulates the underlying objects. -/
def updateActivityFromEvent (h : Heap) (activity : Activity) (event : JsVal) :
    Except JsErr (Heap × Activity) :=
  let ts := asNum (getField event "timestamp")
  -- shallow copy: `toolsUsedRef`/`tokenUsageRef` are shared with `activity`
  let updated := { activity with lastActivity := ts }
  let data := getField event "data"
  match getField event "type" with
  | .vstr "agent_started" => do
    let u := { updated with status := JsVal.vstr "active" }
    let model ← getProp data "model"
    let u := if truthy model then { u with currentModel := model } else u
    let md ← getProp data "metadata"
    -- `{ ...updated.metadata, ...event.data.metadata }` builds a fresh object
    let u := if truthy md then { u with metadata := mergeMeta u.metadata md } else u
    .ok (h, u)
  | .vstr "agent_ended" => do
    let reason ← getProp data "reason"
    let u := { updated with
      status := match reason with
        | .vstr "error" => JsVal.vstr "error"
        | _ => JsVal.vstr "ended"
      endedAt := some ts }
    let ftc ← getProp data "finalTokenCount"
    if truthy ftc then
      -- `updated.tokenUsage.totalTokens = event.data.finalTokenCount`:
      -- write through the SHARED reference, no new cell
      let cell := h.getToken u.tokenUsageRef
      .ok (h.setToken u.tokenUsageRef { cell with totalTokens := ftc }, u)
    else
      .ok (h, u)
  | .vstr "tool_called" => do
    let tn ← getProp data "toolName"
    let dur ← getProp data "duration"
    let inp ← getProp data "toolInput"
    -- `updated.toolsUsed = [...updated.toolsUsed, {...}]`: fresh array,
    -- rebind the copy's reference; the original's array is untouched
    let old := h.getTools updated.toolsUsedRef
    let (h', r) := h.allocTools
      (old ++ [{ toolName := tn, timestamp := ts, duration := dur, input := inp }])
    .ok (h', { updated with toolsUsedRef := r })
  | .vstr "model_switched" => do
    let nm ← getProp data "newModel"
    .ok (h, { updated with currentModel := nm })
  | .vstr "token_update" => do
    let pt ← getProp data "promptTokens"
    let ct ← getProp data "completionTokens"
    let tt ← getProp data "totalTokens"
    -- fresh object literal, rebind the copy's reference
    let (h', r) := h.allocToken ⟨pt, ct, tt⟩
    .ok (h', { updated with tokenUsageRef := r })
  | .vstr "heartbeat" => do
    let st ← getProp data "status"
    .ok (h, { updated with status := st })
  | _ => .ok (h, updated)

end AgentViz.RefModel

namespace AgentViz

/-! # Theorems -/

/-- Helper: `addEvent` always equals append-then-drop-to-the-last-`maxEvents`. -/
theorem addEvent_eq {α : Type} (maxEvents : Nat) (prev : List α) (e : α) :
    addEvent maxEvents prev e = (prev ++ [e]).drop (prev.length + 1 - maxEvents) := by
  unfold addEvent
  simp only [List.length_append, List.length_cons, List.length_nil, Nat.zero_add]
  split_ifs with h
  · rfl
  · have h0 : prev.length + 1 - maxEvents = 0 := by omega
    rw [h0, List.drop_zero]

/-- Helper: folding `addEvent` over an arrival sequence from any log
within bounds keeps exactly the most recent `maxEvents` entries. -/
theorem foldl_addEvent_eq {α : Type} (maxEvents : Nat) :
    ∀ (events acc : List α), acc.length ≤ maxEvents →
      events.foldl (addEvent maxEvents) acc =
        (acc ++ events).drop (acc.length + events.length - maxEvents) := by
  intro events
  induction events with
  | nil =>
    intro acc h
    simp only [List.foldl_nil, List.append_nil, List.length_nil, Nat.add_zero]
    have h0 : acc.length - maxEvents = 0 := by omega
    rw [h0, List.drop_zero]
  | cons e rest ih =>
    intro acc h
    rw [List.foldl_cons, addEvent_eq]
    have hk : acc.length + 1 - maxEvents ≤ (acc ++ [e]).length := by
      simp only [List.length_append, List.length_cons, List.length_nil, Nat.zero_add]
      omega
    have hlen' : ((acc ++ [e]).drop (acc.length + 1 - maxEvents)).length ≤ maxEvents := by
      simp only [List.length_drop, List.length_append, List.length_cons, List.length_nil,
        Nat.zero_add]
      omega
    rw [ih _ hlen']
    rw [← List.drop_append_of_le_length hk, List.drop_drop]
    have hsplit : acc ++ e :: rest = (acc ++ [e]) ++ rest := by simp
    rw [hsplit]
    congr 1
    simp only [List.length_drop, List.length_append, List.length_cons, List.length_nil,
      Nat.zero_add]
    omega

/-- C5: for every `maxEvents` bound and arrival sequence, the event log
holds exactly the most recent `maxEvents` entries in arrival order
(append-then-FIFO-evict), hence never more than `maxEvents` entries; with
`maxEvents = 3` and arrivals `[A, B, C, D]` the log ends as `[B, C, D]`. -/
theorem eventLog_bounded_fifo :
    (∀ (α : Type) (maxEvents : Nat) (events : List α),
      foldAddEvents maxEvents events = events.drop (events.length - maxEvents) ∧
      (foldAddEvents maxEvents events).length ≤ maxEvents) ∧
    foldAddEvents 3 [(1 : Nat), 2, 3, 4] = [2, 3, 4] := by
  have main : ∀ (α : Type) (maxEvents : Nat) (events : List α),
      foldAddEvents maxEvents events = events.drop (events.length - maxEvents) := by
    intro α maxEvents events
    have := foldl_addEvent_eq maxEvents events [] (by simp)
    simpa [foldAddEvents] using this
  refine ⟨fun α maxEvents events => ⟨main α maxEvents events, ?_⟩, by decide⟩
  rw [main α maxEvents events]
  simp only [List.length_drop]
  omega

/-- C4: with the default configuration (`initialDelay = 1000`,
`decay = 2`, `maxDelay = 30000`) the automatic-reconnect delay is
`min(1000 * 2 ^ attempt, 30000)`: concretely 1000, 2000, 4000, 8000,
16000, then 30000 for every attempt from 5 on, and it is monotonically
non-decreasing. -/
theorem backoff_delay_spec :
    (∀ attempt : Nat,
      getReconnectDelay 1000 2 30000 attempt = min (1000 * 2 ^ attempt) 30000) ∧
    getReconnectDelay 1000 2 30000 0 = 1000 ∧
    getReconnectDelay 1000 2 30000 1 = 2000 ∧
    getReconnectDelay 1000 2 30000 2 = 4000 ∧
    getReconnectDelay 1000 2 30000 3 = 8000 ∧
    getReconnectDelay 1000 2 30000 4 = 16000 ∧
    (∀ attempt : Nat, 5 ≤ attempt → getReconnectDelay 1000 2 30000 attempt = 30000) ∧
    (∀ a b : Nat, a ≤ b →
      getReconnectDelay 1000 2 30000 a ≤ getReconnectDelay 1000 2 30000 b) := by
  refine ⟨fun _ => rfl, by decide, by decide, by decide, by decide, by decide, ?_, ?_⟩
  · intro attempt h
    have h32 : (30000 : Nat) ≤ 1000 * 2 ^ attempt := by
      calc (30000 : Nat) ≤ 1000 * 2 ^ 5 := by norm_num
        _ ≤ 1000 * 2 ^ attempt :=
          Nat.mul_le_mul_left 1000 (Nat.pow_le_pow_right (by norm_num) h)
    exact min_eq_right h32
  · intro a b h
    exact min_le_min
      (Nat.mul_le_mul_left 1000 (Nat.pow_le_pow_right (by norm_num) h)) le_rfl

/-- Witness for C4: the theorem's conditional parts applied at concrete
attempts. -/
theorem backoff_delay_spec_witness :
    getReconnectDelay 1000 2 30000 7 = 30000 ∧
    getReconnectDelay 1000 2 30000 2 ≤ getReconnectDelay 1000 2 30000 6 :=
  ⟨backoff_delay_spec.2.2.2.2.2.2.1 7 (by norm_num),
   backoff_delay_spec.2.2.2.2.2.2.2 2 6 (by norm_num)⟩

end AgentViz

namespace AgentViz

/-- Helper: a close callback arriving while the manual-disconnect marker
is set preserves the marker and arms no reconnect timer. -/
theorem onClose_manual_invariant (maxReconnectAttempts : Option Nat) (s : WsState)
    (h1 : s.isManualDisconnect = true) (h2 : s.reconnectTimerPending = false) :
    (onCloseCallback maxReconnectAttempts s).isManualDisconnect = true ∧
    (onCloseCallback maxReconnectAttempts s).reconnectTimerPending = false := by
  simp [onCloseCallback, h1, h2]

/-- C9: `disconnect()` sets the manual-close marker, cancels any pending
reconnect timer and resets the attempt counter; after it, any number of
subsequently delivered socket close callbacks never arms a reconnect
timer. -/
theorem manual_disconnect_suppresses_reconnect :
    ∀ (maxReconnectAttempts : Option Nat) (s : WsState),
      (disconnect s).isManualDisconnect = true ∧
      (disconnect s).reconnectTimerPending = false ∧
      (disconnect s).reconnectAttempts = 0 ∧
      ∀ n : Nat,
        ((onCloseCallback maxReconnectAttempts)^[n] (disconnect s)).reconnectTimerPending
          = false := by
  intro maxA s
  refine ⟨rfl, rfl, rfl, ?_⟩
  intro n
  have key : ∀ m : Nat,
      ((onCloseCallback maxA)^[m] (disconnect s)).isManualDisconnect = true ∧
      ((onCloseCallback maxA)^[m] (disconnect s)).reconnectTimerPending = false := by
    intro m
    induction m with
    | zero => exact ⟨rfl, rfl⟩
    | succ k ih =>
      rw [Function.iterate_succ_apply']
      exact onClose_manual_invariant maxA _ ih.1 ih.2
  exact (key n).2

/-- C10: the message gate accepts a decoded payload iff it is a non-null
object-kind value whose `type` field is a string in
{agent_event, agent_activity, heartbeat, error} and whose `payload`
field is non-null and of object kind; concretely an array payload is
accepted, while `null`, string and number payloads, and a missing
`type`, are rejected. -/
theorem message_gate_spec :
    (∀ v : JsVal, isValidMessage v = true ↔
      (jsTypeof v = "object" ∧ v ≠ JsVal.vnull ∧
       (∃ s, getField v "type" = JsVal.vstr s ∧ s ∈ validMessageTypes) ∧
       jsTypeof (getField v "payload") = "object" ∧
       getField v "payload" ≠ JsVal.vnull)) ∧
    isValidMessage (.vobj [("type", .vstr "agent_event"), ("payload", .varr [])]) = true ∧
    isValidMessage (.vobj [("type", .vstr "agent_event"), ("payload", .vnull)]) = false ∧
    isValidMessage (.vobj [("type", .vstr "agent_event"), ("payload", .vstr "x")]) = false ∧
    isValidMessage (.vobj [("type", .vstr "agent_event"), ("payload", .vnum 3)]) = false ∧
    isValidMessage (.vobj [("payload", .vobj [])]) = false := by
  refine ⟨?_, rfl, rfl, rfl, rfl, rfl⟩
  intro v
  cases v with
  | vundefined => simp [isValidMessage, jsTypeof]
  | vnull => simp [isValidMessage, jsTypeof]
  | vbool b => simp [isValidMessage, jsTypeof]
  | vnum n => simp [isValidMessage, jsTypeof]
  | vstr s => simp [isValidMessage, jsTypeof]
  | varr l => simp [isValidMessage, jsTypeof, getField]
  | vobj fs =>
    rcases ht : lookupField fs "type" <;>
      rcases hp : lookupField fs "payload" <;>
        simp [isValidMessage, jsTypeof, getField, ht, hp, List.elem_iff]

end AgentViz

namespace AgentViz

/-- Helper: characterization of `isValidAgentEvent` — an event passes iff
it is a non-null object-kind value whose `agentId` is a string (any
string), whose `timestamp` is a number, and whose `type` is a string
among the six recognized kinds. -/
theorem isValidAgentEvent_iff (v : JsVal) :
    isValidAgentEvent v = true ↔
      (jsTypeof v = "object" ∧ v ≠ JsVal.vnull ∧
       (∃ a, getField v "agentId" = JsVal.vstr a) ∧
       (∃ t : Int, getField v "timestamp" = JsVal.vnum t) ∧
       (∃ s, getField v "type" = JsVal.vstr s ∧ s ∈ validEventTypes)) := by
  cases v with
  | vundefined => simp [isValidAgentEvent, jsTypeof]
  | vnull => simp [isValidAgentEvent, jsTypeof]
  | vbool b => simp [isValidAgentEvent, jsTypeof]
  | vnum n => simp [isValidAgentEvent, jsTypeof]
  | vstr s => simp [isValidAgentEvent, jsTypeof]
  | varr l => simp [isValidAgentEvent, jsTypeof, getField]
  | vobj fs =>
    rcases ht : lookupField fs "type" <;>
      rcases ha : lookupField fs "agentId" <;>
        rcases hts : lookupField fs "timestamp" <;>
          simp [isValidAgentEvent, jsTypeof, getField, ht, ha, hts, List.elem_iff]

/-- C7: folding an event that is missing `agentId`, missing `timestamp`,
has a non-string `type`, or has a `type` outside the six recognized
kinds returns the store unchanged. -/
theorem invalid_event_leaves_store_unchanged
    (now : Int) (store : ActivityStore) (v : JsVal)
    (h : getField v "agentId" = JsVal.vundefined ∨ getField v "timestamp" = JsVal.vundefined ∨
         jsTypeof (getField v "type") ≠ "string" ∨
         (∀ s, getField v "type" = JsVal.vstr s → s ∉ validEventTypes)) :
    processEvent now store v = .ok store := by
  have hinv : isValidAgentEvent v = false := by
    rcases hcase : isValidAgentEvent v with _ | _
    · rfl
    · exfalso
      rcases (isValidAgentEvent_iff v).mp hcase with
        ⟨_, _, ⟨a, ha⟩, ⟨t, hts⟩, ⟨s, hty, hmem⟩⟩
      rcases h with h | h | h | h
      · rw [ha] at h; exact JsVal.noConfusion h
      · rw [hts] at h; exact JsVal.noConfusion h
      · rw [hty] at h; exact h rfl
      · exact (h s hty) hmem
  simp [processEvent, hinv]

/-- Witness for C7: an event carrying only a `type` (missing `agentId`
and `timestamp`) is skipped, leaving the empty store unchanged. -/
theorem invalid_event_leaves_store_unchanged_witness :
    processEvent 0 [] (JsVal.vobj [("type", JsVal.vstr "agent_started")]) = .ok [] :=
  invalid_event_leaves_store_unchanged 0 []
    (JsVal.vobj [("type", JsVal.vstr "agent_started")]) (Or.inl rfl)

/-- Counterexample to C8 as stated: an otherwise well-formed `heartbeat`
event whose `agentId` is the empty string is NOT rejected — it passes
validation and the fold creates a store entry keyed by `""`. -/
theorem emptyAgentId_not_rejected :
    isValidAgentEvent (JsVal.vobj [("type", JsVal.vstr "heartbeat"),
      ("agentId", JsVal.vstr ""), ("timestamp", JsVal.vnum 1),
      ("data", JsVal.vobj [("status", JsVal.vstr "idle")])]) = true ∧
    ∃ act : AgentActivity,
      processEvent 0 [] (JsVal.vobj [("type", JsVal.vstr "heartbeat"),
        ("agentId", JsVal.vstr ""), ("timestamp", JsVal.vnum 1),
        ("data", JsVal.vobj [("status", JsVal.vstr "idle")])]) = .ok [("", act)] :=
  ⟨rfl, ⟨_, rfl⟩⟩

/-- C8 (amended): validation requires only that `agentId` be a string —
the empty string is accepted: an otherwise well-formed event with
`agentId = ""` passes validation, and folding it updates the store
(here: creates the entry keyed `""`) rather than skipping it. -/
theorem emptyAgentId_foldable :
    (∀ v : JsVal, jsTypeof v = "object" → v ≠ JsVal.vnull →
      getField v "agentId" = JsVal.vstr "" →
      (∃ t : Int, getField v "timestamp" = JsVal.vnum t) →
      (∃ s, getField v "type" = JsVal.vstr s ∧ s ∈ validEventTypes) →
      isValidAgentEvent v = true) ∧
    ∃ act : AgentActivity,
      processEvent 0 [] (JsVal.vobj [("type", JsVal.vstr "heartbeat"),
        ("agentId", JsVal.vstr ""), ("timestamp", JsVal.vnum 1),
        ("data", JsVal.vobj [("status", JsVal.vstr "idle")])]) = .ok [("", act)] ∧
      act.agentId = "" := by
  refine ⟨fun v hobj hnn ha hts hty =>
    (isValidAgentEvent_iff v).mpr ⟨hobj, hnn, ⟨"", ha⟩, hts, hty⟩, ⟨_, rfl, rfl⟩⟩

/-- Witness for C8 (amended): the acceptance part applied at the
concrete empty-`agentId` heartbeat event. -/
theorem emptyAgentId_foldable_witness :
    isValidAgentEvent (JsVal.vobj [("type", JsVal.vstr "heartbeat"),
      ("agentId", JsVal.vstr ""), ("timestamp", JsVal.vnum 1),
      ("data", JsVal.vobj [("status", JsVal.vstr "idle")])]) = true :=
  emptyAgentId_foldable.1 _ rfl (by simp) rfl ⟨1, rfl⟩ ⟨"heartbeat", rfl, by simp [validEventTypes]⟩

/-- C2 is violated by the code: a `token_update` event with no `data`
object passes field validation, yet the fold THROWS a `TypeError`
(reading `promptTokens` of `undefined`) instead of skipping — the
reducer does raise to its caller on this malformed input. -/
theorem dataless_event_throws :
    isValidAgentEvent (JsVal.vobj [("type", JsVal.vstr "token_update"),
      ("agentId", JsVal.vstr "a"), ("timestamp", JsVal.vnum 1)]) = true ∧
    processEvent 0 [] (JsVal.vobj [("type", JsVal.vstr "token_update"),
      ("agentId", JsVal.vstr "a"), ("timestamp", JsVal.vnum 1)])
      = .error (JsErr.typeError "promptTokens") :=
  ⟨rfl, rfl⟩

/-- C3 is violated by the code: `agent_ended` with `finalTokenCount`
writes through the `tokenUsage` reference shared (by shallow spread)
with the original activity. Reading the ORIGINAL activity's
`tokenUsage` reference (cell 0) after the call yields `totalTokens = 42`
where it held `10` before — the previously returned snapshot was mutated
in place. -/
theorem agentEnded_mutates_prior_snapshot :
    ∃ h' : RefModel.Heap, ∃ act' : RefModel.Activity,
      RefModel.updateActivityFromEvent
        ⟨[⟨JsVal.vnum 0, JsVal.vnum 0, JsVal.vnum 10⟩], [[]]⟩
        ⟨"a", JsVal.vstr "active", JsVal.vundefined, 0, 0, 0, 0, none, JsVal.vundefined⟩
        (JsVal.vobj [("type", JsVal.vstr "agent_ended"), ("agentId", JsVal.vstr "a"),
          ("timestamp", JsVal.vnum 5),
          ("data", JsVal.vobj [("finalTokenCount", JsVal.vnum 42)])])
        = .ok (h', act') ∧
      (RefModel.Heap.getToken
        ⟨[⟨JsVal.vnum 0, JsVal.vnum 0, JsVal.vnum 10⟩], [[]]⟩ 0).totalTokens
        = JsVal.vnum 10 ∧
      (RefModel.Heap.getToken h' 0).totalTokens = JsVal.vnum 42 ∧
      act'.tokenUsageRef = 0 :=
  ⟨_, _, rfl, rfl, rfl, rfl⟩

end AgentViz

namespace AgentViz

/-- Helper: reading a field of an object value is list lookup. -/
theorem getField_vobj (fs : List (String × JsVal)) (k : String) :
    getField (JsVal.vobj fs) k = lookupField fs k := rfl

/-- Helper: `Map.get` after `Map.set` at the same key. -/
theorem storeGet_storeSet_self (s : ActivityStore) (k : String) (a : AgentActivity) :
    storeGet (storeSet s k a) k = some a := by
  induction s with
  | nil => simp [storeSet, storeGet]
  | cons p rest ih =>
    obtain ⟨k', a'⟩ := p
    by_cases h : k' = k
    · simp [storeSet, storeGet, h]
    · simp [storeSet, storeGet, h, ih]

/-- C6: a valid `tool_called` event for an `agentId` with no existing
store entry creates a new entry for that id: the event is folded into a
fresh placeholder, so the entry records the tool call (its `toolName`
and the event timestamp) in `toolsUsed` and keeps the defaulted status
`active` — the event is not dropped. -/
theorem toolCalled_unknown_agent
    (now : Int) (store : ActivityStore) (v : JsVal) (agentId : String)
    (ts : Int) (fs : List (String × JsVal)) (toolName : String)
    (hvalid : isValidAgentEvent v = true)
    (hty : getField v "type" = JsVal.vstr "tool_called")
    (hid : getField v "agentId" = JsVal.vstr agentId)
    (hts : getField v "timestamp" = JsVal.vnum ts)
    (hdata : getField v "data" = JsVal.vobj fs)
    (htn : lookupField fs "toolName" = JsVal.vstr toolName)
    (hnone : storeGet store agentId = none) :
    ∃ act : AgentActivity,
      processEvent now store v = .ok (storeSet store agentId act) ∧
      storeGet (storeSet store agentId act) agentId = some act ∧
      act.status = JsVal.vstr "active" ∧
      act.toolsUsed.map (fun tc => (tc.toolName, tc.timestamp))
        = [(JsVal.vstr toolName, ts)] := by
  refine ⟨{ agentId := agentId
            status := JsVal.vstr "active"
            currentModel := JsVal.vundefined
            toolsUsed := [⟨JsVal.vstr toolName, ts, lookupField fs "duration",
              lookupField fs "toolInput"⟩]
            tokenUsage := ⟨JsVal.vnum 0, JsVal.vnum 0, JsVal.vnum 0⟩
            lastActivity := ts
            startedAt := now
            endedAt := none
            metadata := JsVal.vundefined },
    ?_, storeGet_storeSet_self store agentId _, rfl, rfl⟩
  simp [processEvent, hvalid, hid, hty, hts, hdata, hnone,
    updateActivityFromEvent, getProp, getField_vobj, asNum, createInitialActivity, htn]
  rfl

/-- Witness for C6: a `tool_called` event for the unseen agent `a1`
creates its entry, recording the call of `read` at timestamp 5 with
status `active`. -/
theorem toolCalled_unknown_agent_witness :
    ∃ act : AgentActivity,
      processEvent 0 [] (JsVal.vobj [("type", JsVal.vstr "tool_called"),
        ("agentId", JsVal.vstr "a1"), ("timestamp", JsVal.vnum 5),
        ("data", JsVal.vobj [("toolName", JsVal.vstr "read")])])
        = .ok (storeSet [] "a1" act) ∧
      storeGet (storeSet [] "a1" act) "a1" = some act ∧
      act.status = JsVal.vstr "active" ∧
      act.toolsUsed.map (fun tc => (tc.toolName, tc.timestamp))
        = [(JsVal.vstr "read", 5)] :=
  toolCalled_unknown_agent 0 []
    (JsVal.vobj [("type", JsVal.vstr "tool_called"), ("agentId", JsVal.vstr "a1"),
      ("timestamp", JsVal.vnum 5), ("data", JsVal.vobj [("toolName", JsVal.vstr "read")])])
    "a1" 5 [("toolName", JsVal.vstr "read")] "read" rfl rfl rfl rfl rfl rfl rfl

end AgentViz

namespace AgentViz

/-- Helper: `Except` bind on a success. -/
theorem except_ok_bind {α β : Type} (a : α) (f : α → Except JsErr β) :
    (Except.ok a : Except JsErr α) >>= f = f a := rfl

/-- Helper: `Except` bind on a thrown error. -/
theorem except_error_bind {α β : Type} (e : JsErr) (f : α → Except JsErr β) :
    (Except.error e : Except JsErr α) >>= f = Except.error e := rfl

/-- Helper: `Except` bind is associative. -/
theorem except_bind_assoc {α β γ : Type} (x : Except JsErr α)
    (f : α → Except JsErr β) (g : β → Except JsErr γ) :
    (x >>= f) >>= g = x >>= fun a => f a >>= g := by
  cases x <;> rfl

/-- Helper: one step of the batch loop equals one `processEvent` call
followed by the rest of the batch. -/
theorem processEvents_cons (now : Int) (v : JsVal) (rest : List (Int × JsVal))
    (store : ActivityStore) :
    processEvents store ((now, v) :: rest) =
      processEvent now store v >>= fun s => processEvents s rest := by
  by_cases hv : isValidAgentEvent v
  · simp only [processEvents, processEvent, hv, Bool.not_true, Bool.false_eq_true, if_false]
    rcases hA : getField v "agentId" with _ | _ | b | n | agentId | fs | l <;>
      rcases hT : getField v "type" with _ | _ | b' | n' | ty | fs' | l' <;>
        (simp only [except_ok_bind]; try rfl)
    by_cases hty : ty = "agent_started" <;>
      rcases hE : storeGet store agentId with _ | act <;>
        simp only [hty, hE, if_true, if_false, reduceIte, except_ok_bind,
          except_error_bind, except_bind_assoc]
  · simp only [processEvents, processEvent, hv, Bool.not_false, if_true, reduceIte]
    rfl

/-- C1: processing an ordered event sequence in one batch call
(`processEvents`) produces the same result as folding the events one at
a time with `processEvent` in that order — for every starting store and
every sequence, shared `agentId`s or not, invalid events (skipped by
both) included; a thrown exception aborts both runs at the same event. -/
theorem batch_fold_equals_sequential :
    ∀ (events : List (Int × JsVal)) (store : ActivityStore),
      processEvents store events =
        events.foldlM (fun st p => processEvent p.1 st p.2) store := by
  intro events
  induction events with
  | nil => intro store; rfl
  | cons p rest ih =>
    intro store
    obtain ⟨now, v⟩ := p
    rw [processEvents_cons]
    show _ = processEvent now store v >>= fun s =>
      rest.foldlM (fun st p => processEvent p.1 st p.2) s
    cases hP : processEvent now store v with
    | error e => simp [except_error_bind]
    | ok s' => simp [except_ok_bind, ih]

end AgentViz
